import Mathlib

/-!
Verification of the coin-simulator core (src/script.js) against its
natural-language specification.

The physics integrator, settle/classification state machine, chaos-demo
construction, dt clamping and aggregate statistics are embedded shallowly
over exact rational arithmetic:

* JS numbers are modelled as `ℚ`.  `Math.PI` is modelled by the exact
  rational value of the IEEE-754 double closest to π.
* `Math.sqrt` is irrational on most inputs, so the step function takes an
  abstract parameter `sq : ℚ → ℚ` standing for it.  No claim below depends
  on the numeric value of the square root, so every theorem about the step
  is proved for an arbitrary `sq`.
* The one place the source can produce NaN — the unguarded division
  `vx / speed` in the drag computation when `speed == 0` (a 0/0 in JS) —
  is modelled by making the step return `Option Coin`, with `none`
  representing the NaN-poisoned state.  `Math.sqrt s = 0` iff `s = 0`
  (for `s ≥ 0`), so the `none` branch is guarded by the radicand being 0.
-/

namespace CoinSim

/-- Physics constant from script.js line 2: `const GRAVITY = 9.81`. -/
def GRAVITY : ℚ := 9.81

/-- Pixels-per-meter constant from script.js line 3: `const SCALE = 100`. -/
def SCALE : ℚ := 100

/-- The exact rational value of the IEEE-754 double `Math.PI`
(884279719003555 · 2⁻⁴⁸). -/
def MATH_PI : ℚ := 884279719003555 / 281474976710656

/-- The two terminal classifications the source stores in `coin.result`
as the strings of heads and tails; `Option CoinResult` models the field,
with `none` for the initial `null` (the spec's Unresolved). -/
inductive CoinResult
  | heads
  | tails
deriving DecidableEq

/-- The parameter record (script.js lines 23–31): height, velocity, spin,
angle, wind, restitution, drag. -/
structure Params where
  height : ℚ
  velocity : ℚ
  spin : ℚ
  angle : ℚ
  wind : ℚ
  restitution : ℚ
  drag : ℚ
deriving DecidableEq

/-- The world geometry the integrator reads: the globals `canvasWidth`
and `canvasHeight` (pixels; divided by `SCALE` where used). -/
structure World where
  canvasWidth : ℚ
  canvasHeight : ℚ
deriving DecidableEq

/-- Ground height in meters: `canvasHeight / SCALE - 0.05`
(script.js line 89). -/
def World.groundY (w : World) : ℚ := w.canvasHeight / SCALE - 0.05

/-- The Coin entity state (script.js lines 39–56). -/
structure Coin where
  x : ℚ
  y : ℚ
  vx : ℚ
  vy : ℚ
  angle : ℚ
  angularVelocity : ℚ
  radius : ℚ
  mass : ℚ
  restitution : ℚ
  drag : ℚ
  wind : ℚ
  isSettled : Bool
  settleTimer : ℚ
  trajectory : List (ℚ × ℚ)
  colorIndex : ℕ
  result : Option CoinResult
deriving DecidableEq

/-- Truncation toward zero, the rounding used by the JS `%` operator. -/
def truncQ (q : ℚ) : ℤ := if 0 ≤ q then ⌊q⌋ else -⌊-q⌋

/-- The JS remainder operator `a % n` (sign of the dividend):
`a - n * trunc (a / n)`. -/
def jsRem (a n : ℚ) : ℚ := a - n * (truncQ (a / n) : ℚ)

/-- The normalization of script.js line 126:
`((angle % (2π)) + 2π) % (2π)`. -/
def normalizeAngle (a : ℚ) : ℚ :=
  jsRem (jsRem a (2 * MATH_PI) + 2 * MATH_PI) (2 * MATH_PI)

/-- `Coin.determineResult` (script.js lines 124–135), as a function of the
rotation angle: heads if the normalized angle is below a quarter turn or
above three quarter turns, else tails. -/
def determineResult (a : ℚ) : CoinResult :=
  let quarterTurn := MATH_PI / 2
  if normalizeAngle a < quarterTurn ∨ normalizeAngle a > 3 * quarterTurn then
    CoinResult.heads
  else
    CoinResult.tails

/-- The Coin constructor (script.js lines 39–56).  `cosf` and `sinf` stand
for `Math.cos` and `Math.sin`; no claim depends on their values. -/
def mkCoin (cosf sinf : ℚ → ℚ) (x y : ℚ) (p : Params) (colorIndex : ℕ) : Coin where
  x := x
  y := y
  vx := cosf (p.angle * MATH_PI / 180) * p.velocity
  vy := -sinf (p.angle * MATH_PI / 180) * p.velocity
  angle := 0
  angularVelocity := p.spin
  radius := 0.12
  mass := 0.01
  restitution := p.restitution
  drag := p.drag
  wind := p.wind
  isSettled := false
  settleTimer := 0
  trajectory := []
  colorIndex := colorIndex
  result := none

/-- The free-flight portion of `Coin.update` (script.js lines 61–86):
gravity, air resistance, wind, position integration, rotation, trajectory
recording.  `sq` stands for `Math.sqrt`; this branch is only entered when
the radicand is nonzero (see `Coin.update`), so the division by
`speed` is the well-defined JS division. -/
def Coin.freeflight (sq : ℚ → ℚ) (c : Coin) (dt : ℚ) : Coin :=
  let vyg := c.vy + GRAVITY * dt
  let speed := sq (c.vx * c.vx + vyg * vyg)
  let dragForce := 0.5 * c.drag * speed * speed
  let dragX := -dragForce * (c.vx / speed)
  let dragY := -dragForce * (vyg / speed)
  let vx1 := c.vx + dragX * dt
  let vy1 := vyg + dragY * dt
  let vx2 := vx1 + c.wind * dt * 0.5
  let x1 := c.x + vx2 * dt
  let y1 := c.y + vy1 * dt
  let ang1 := c.angle + c.angularVelocity * dt
  let traj := if c.trajectory.length < 1000 then c.trajectory ++ [(x1, y1)] else c.trajectory
  { c with x := x1, y := y1, vx := vx2, vy := vy1, angle := ang1, trajectory := traj }

/-- The ground-collision and settle block of `Coin.update`
(script.js lines 88–111): clamp to the ground, reflect and damp the
velocities, then either accumulate the settle timer (settling once it
exceeds 0.5 s) or reset it. -/
def Coin.groundStep (c : Coin) (w : World) (dt : ℚ) : Coin :=
  if c.y + c.radius > w.groundY then
    let vyb := -c.vy * c.restitution
    let vxb := c.vx * 0.95
    let avb := c.angularVelocity * 0.9
    if |vyb| < 0.1 ∧ |vxb| < 0.1 then
      let t := c.settleTimer + dt
      if t > 0.5 then
        { c with y := w.groundY - c.radius, vy := 0, vx := 0, angularVelocity := 0,
                 settleTimer := t, isSettled := true,
                 result := some (determineResult c.angle) }
      else
        { c with y := w.groundY - c.radius, vy := vyb, vx := vxb,
                 angularVelocity := avb, settleTimer := t }
    else
      { c with y := w.groundY - c.radius, vy := vyb, vx := vxb,
               angularVelocity := avb, settleTimer := 0 }
  else c

/-- The wall-collision block of `Coin.update` (script.js lines 113–121):
two sequential clamps, left wall then right wall, each flipping and
scaling `vx` by 0.8. -/
def Coin.wallStep (c : Coin) (w : World) : Coin :=
  let c1 := if c.x - c.radius < 0 then { c with x := c.radius, vx := -c.vx * 0.8 } else c
  if c1.x + c1.radius > w.canvasWidth / SCALE then
    { c1 with x := w.canvasWidth / SCALE - c1.radius, vx := -c1.vx * 0.8 }
  else c1

/-- `Coin.update` (script.js lines 58–122).  Returns `none` exactly when
the source produces NaN: the drag code divides `vx / speed` with no guard,
and `speed = Math.sqrt(vx² + vy²)` (after the gravity update of `vy`) is 0
iff the radicand is 0, in which case the division is JS 0/0 = NaN. -/
def Coin.update (sq : ℚ → ℚ) (w : World) (c : Coin) (dt : ℚ) : Option Coin :=
  if c.isSettled then some c
  else if c.vx * c.vx + (c.vy + GRAVITY * dt) * (c.vy + GRAVITY * dt) = 0 then none
  else some (((c.freeflight sq dt).groundStep w dt).wallStep w)

/-- Repeated application of the integrator step over a list of frame
times, propagating the NaN state through `Option`. -/
def updateIter (sq : ℚ → ℚ) (w : World) (c : Coin) (dts : List ℚ) : Option Coin :=
  dts.foldlM (fun a dt => Coin.update sq w a dt) c

/-- The dt computation of the animation loop (script.js line 478):
`Math.min(elapsedMs / 1000, 0.02)`. -/
def animateDt (elapsedMs : ℚ) : ℚ := min (elapsedMs / 1000) 0.02

/-- Launch x position used by `flipOnce`, `runSingleFlip` and
`runChaosDemo`: `canvasWidth / (2 * SCALE)`. -/
def startX (w : World) : ℚ := w.canvasWidth / (2 * SCALE)

/-- Launch y position: `canvasHeight / SCALE - params.height`. -/
def startY (w : World) (p : Params) : ℚ := w.canvasHeight / SCALE - p.height

/-- The perturbation factor of script.js line 408:
`1 + (i - 3.5) * 0.002`. -/
def chaosVariation (i : ℕ) : ℚ := 1 + ((i : ℚ) - 3.5) * 0.002

/-- The modified parameter set built for chaos coin `i`
(script.js lines 409–412): only `velocity` is scaled. -/
def chaosParams (p : Params) (i : ℕ) : Params :=
  { p with velocity := p.velocity * chaosVariation i }

/-- `runChaosDemo` (script.js lines 397–418): the list of 8 coins it
constructs, coin `i` from the perturbed parameters with color index `i`. -/
def runChaosDemo (cosf sinf : ℚ → ℚ) (w : World) (p : Params) : List Coin :=
  (List.range 8).map (fun i => mkCoin cosf sinf (startX w) (startY w p) (chaosParams p i) i)

/-- The aggregate statistics record (script.js lines 16–20). -/
structure Stats where
  total : ℕ
  heads : ℕ
  tails : ℕ
deriving DecidableEq

/-- `clearStats` (script.js lines 430–433): the fresh statistics value it
assigns. -/
def clearStats : Stats := ⟨0, 0, 0⟩

/-- `updateStats` (script.js lines 435–443): increment `total`, then
increment `heads` if the result is heads, else `tails`. -/
def updateStats (s : Stats) (r : CoinResult) : Stats :=
  match r with
  | CoinResult.heads => { s with total := s.total + 1, heads := s.heads + 1 }
  | CoinResult.tails => { s with total := s.total + 1, tails := s.tails + 1 }

/-- The statistics effect of `run100Times`: one `updateStats` call per
completed single flip, folded over the run results in order. -/
def runBatch (s : Stats) (results : List CoinResult) : Stats :=
  results.foldl updateStats s

/-- The mutable globals touched by the statistics operations: the `stats`
record and the in-flight run's coins (`chaosCoins`, `isSimulating`). -/
structure SimState where
  stats : Stats
  chaosCoins : List Coin
  isSimulating : Bool

/-- The effect of `clearStats` on the globals: it reassigns `stats` only
(the DOM refresh it also performs is out of scope). -/
def clearStatsState (st : SimState) : SimState :=
  { st with stats := clearStats }

/-! ## Concrete test fixtures -/

/-- A world with the minimum canvas size `resizeCanvas` can produce:
`canvasWidth = max 600 _ = 600`, `canvasHeight = 500`. -/
def testWorld : World := ⟨600, 500⟩

/-- The default parameter values of script.js lines 23–31. -/
def defaultParams : Params := ⟨1.5, 5, 20, 75, 0, 0.6, 0.005⟩

/-! ## Basic facts about the integrator stages -/

theorem Coin.update_of_settled (sq : ℚ → ℚ) (w : World) (c : Coin) (dt : ℚ)
    (h : c.isSettled = true) : Coin.update sq w c dt = some c := by
  simp [Coin.update, h]

theorem Coin.freeflight_isSettled (sq : ℚ → ℚ) (c : Coin) (dt : ℚ) :
    (c.freeflight sq dt).isSettled = c.isSettled := rfl

theorem Coin.freeflight_result (sq : ℚ → ℚ) (c : Coin) (dt : ℚ) :
    (c.freeflight sq dt).result = c.result := rfl

theorem Coin.freeflight_angle (sq : ℚ → ℚ) (c : Coin) (dt : ℚ) :
    (c.freeflight sq dt).angle = c.angle + c.angularVelocity * dt := rfl

theorem Coin.wallStep_isSettled (c : Coin) (w : World) :
    (c.wallStep w).isSettled = c.isSettled := by
  rw [Coin.wallStep]
  split_ifs <;> rfl

theorem Coin.wallStep_result (c : Coin) (w : World) :
    (c.wallStep w).result = c.result := by
  rw [Coin.wallStep]
  split_ifs <;> rfl

theorem Coin.wallStep_angle (c : Coin) (w : World) :
    (c.wallStep w).angle = c.angle := by
  rw [Coin.wallStep]
  split_ifs <;> rfl

theorem Coin.groundStep_angle (c : Coin) (w : World) (dt : ℚ) :
    (c.groundStep w dt).angle = c.angle := by
  simp only [Coin.groundStep]
  split_ifs <;> rfl

/-- After the ground block, either the result and settled flag are carried
over unchanged, or the coin has just settled and its result was computed
from its (already updated) rotation angle. -/
theorem Coin.groundStep_cases (c : Coin) (w : World) (dt : ℚ) :
    ((c.groundStep w dt).result = c.result ∧ (c.groundStep w dt).isSettled = c.isSettled)
      ∨ ((c.groundStep w dt).result = some (determineResult c.angle)
          ∧ (c.groundStep w dt).isSettled = true) := by
  simp only [Coin.groundStep]
  split_ifs <;> simp

/-- For a non-settled coin, the step is NaN (`none`) exactly when the
speed at the drag computation is zero, i.e. `vx = 0` and the
gravity-updated `vy` is zero. -/
theorem Coin.update_none_iff (sq : ℚ → ℚ) (w : World) (c : Coin) (dt : ℚ)
    (h : c.isSettled = false) :
    Coin.update sq w c dt = none ↔ c.vx = 0 ∧ c.vy + GRAVITY * dt = 0 := by
  rw [Coin.update, h]
  by_cases hz : c.vx * c.vx + (c.vy + GRAVITY * dt) * (c.vy + GRAVITY * dt) = 0
  · simp only [if_pos hz, Bool.false_eq_true, if_false]
    simpa using mul_self_add_mul_self_eq_zero.mp hz
  · simp only [if_neg hz, Bool.false_eq_true, if_false]
    constructor
    · intro hsome
      exact absurd hsome (by simp)
    · intro hvz
      exact absurd (mul_self_add_mul_self_eq_zero.mpr hvz) hz

/-- For a non-settled coin with nonzero drag-time speed, the step is the
free-flight stage followed by the ground and wall blocks. -/
theorem Coin.update_eq_some (sq : ℚ → ℚ) (w : World) (c : Coin) (dt : ℚ)
    (h : c.isSettled = false)
    (hz : ¬ c.vx * c.vx + (c.vy + GRAVITY * dt) * (c.vy + GRAVITY * dt) = 0) :
    Coin.update sq w c dt = some (((c.freeflight sq dt).groundStep w dt).wallStep w) := by
  rw [Coin.update, h]
  simp only [if_neg hz, Bool.false_eq_true, if_false]

theorem updateIter_nil (sq : ℚ → ℚ) (w : World) (c : Coin) :
    updateIter sq w c [] = some c := rfl

theorem updateIter_cons (sq : ℚ → ℚ) (w : World) (c : Coin) (dt : ℚ) (dts : List ℚ) :
    updateIter sq w c (dt :: dts)
      = (Coin.update sq w c dt).bind (fun c1 => updateIter sq w c1 dts) := by
  simp [updateIter, List.foldlM_cons]

/-! ## The physics ignores the color index

The only field of a coin that `update` neither reads nor writes is the
cosmetic `colorIndex`; the following lemmas make that exact, and are the
heart of the determinism claim: two coins that differ only in their color
index evolve to states that differ only in their color index. -/

/-- Replace the cosmetic color index of a coin. -/
def Coin.withColor (c : Coin) (k : ℕ) : Coin := { c with colorIndex := k }

theorem Coin.freeflight_withColor (sq : ℚ → ℚ) (c : Coin) (dt : ℚ) (k : ℕ) :
    (c.withColor k).freeflight sq dt = (c.freeflight sq dt).withColor k := rfl

theorem Coin.groundStep_withColor (c : Coin) (w : World) (dt : ℚ) (k : ℕ) :
    (c.withColor k).groundStep w dt = (c.groundStep w dt).withColor k := by
  simp only [Coin.groundStep, Coin.withColor]
  split_ifs <;> rfl

theorem Coin.wallStep_withColor (c : Coin) (w : World) (k : ℕ) :
    (c.withColor k).wallStep w = (c.wallStep w).withColor k := by
  simp only [Coin.wallStep, Coin.withColor]
  split_ifs <;> rfl

theorem Coin.update_withColor (sq : ℚ → ℚ) (w : World) (c : Coin) (dt : ℚ) (k : ℕ) :
    Coin.update sq w (c.withColor k) dt
      = (Coin.update sq w c dt).map (fun a => a.withColor k) := by
  have hs : (c.withColor k).isSettled = c.isSettled := rfl
  by_cases h : c.isSettled = true
  · rw [Coin.update_of_settled sq w _ dt (hs.trans h), Coin.update_of_settled sq w c dt h]
    rfl
  · have h' : c.isSettled = false := by
      cases hb : c.isSettled
      · rfl
      · exact absurd hb h
    by_cases hz : c.vx * c.vx + (c.vy + GRAVITY * dt) * (c.vy + GRAVITY * dt) = 0
    · rw [(Coin.update_none_iff sq w _ dt (hs.trans h')).mpr
        (mul_self_add_mul_self_eq_zero.mp hz),
        (Coin.update_none_iff sq w c dt h').mpr (mul_self_add_mul_self_eq_zero.mp hz)]
      rfl
    · rw [Coin.update_eq_some sq w _ dt (hs.trans h') hz,
        Coin.update_eq_some sq w c dt h' hz, Coin.freeflight_withColor,
        Coin.groundStep_withColor, Coin.wallStep_withColor]
      rfl

theorem updateIter_withColor (sq : ℚ → ℚ) (w : World) (c : Coin) (dts : List ℚ) (k : ℕ) :
    updateIter sq w (c.withColor k) dts
      = (updateIter sq w c dts).map (fun a => a.withColor k) := by
  induction dts generalizing c with
  | nil => rfl
  | cons dt dts ih =>
      rw [updateIter_cons, updateIter_cons, Coin.update_withColor]
      rcases Coin.update sq w c dt with _ | c1
      · rfl
      · simpa using ih c1

/-! ## Statistics lemmas -/

theorem updateStats_total (s : Stats) (r : CoinResult) :
    (updateStats s r).total = s.total + 1 := by
  cases r <;> rfl

theorem updateStats_heads_add_tails (s : Stats) (r : CoinResult) :
    (updateStats s r).heads + (updateStats s r).tails = s.heads + s.tails + 1 := by
  cases r <;> simp [updateStats] <;> omega

theorem runBatch_total (s : Stats) (results : List CoinResult) :
    (runBatch s results).total = s.total + results.length := by
  induction results generalizing s with
  | nil => rfl
  | cons r rs ih =>
      simp only [runBatch, List.foldl_cons, List.length_cons] at ih ⊢
      rw [ih, updateStats_total]
      omega

theorem runBatch_inv (s : Stats) (results : List CoinResult)
    (h : s.heads + s.tails = s.total) :
    (runBatch s results).heads + (runBatch s results).tails = (runBatch s results).total := by
  induction results generalizing s with
  | nil => exact h
  | cons r rs ih =>
      simp only [runBatch, List.foldl_cons] at ih ⊢
      exact ih _ (by rw [updateStats_heads_add_tails, updateStats_total, h])

/-! ## More concrete coin states used to instantiate the theorems -/

/-- A mid-flight coin state poised for the drag division by zero:
`vx = 0` and `vy` exactly cancels the gravity increment of `dt = 1/100`. -/
def coinZeroSpeed : Coin :=
  ⟨3, 2, 0, -9.81 * (1/100), 1, 20, 0.12, 0.01, 0.6, 0.005, 0, false, 0, [], 0, none⟩

/-- An ordinary mid-flight coin state with nonzero horizontal velocity. -/
def coinFlying : Coin :=
  ⟨3, 2, 1, 0, 1, 20, 0.12, 0.01, 0.6, 0.005, 0, false, 0, [], 0, none⟩

/-- A coin that has already settled (result tails, matching its angle). -/
def coinDone : Coin :=
  ⟨3, 4.83, 0, 0, 2, 0, 0.12, 0.01, 0.6, 0.005, 0, true, 0.6, [], 0, some CoinResult.tails⟩

/-- A coin resting on the ground, below both speed thresholds, whose
settle timer is about to cross 0.5 s. -/
def coinSettling : Coin :=
  ⟨3, 4.9, 0.05, 0.04, 1, 0, 0.12, 0.01, 0.6, 0, 0, false, 0.6, [], 0, none⟩

/-- The state of `coinSettling` after one integrator step. -/
def coinSettled : Coin := (Coin.update id testWorld coinSettling (1/1000)).getD coinSettling

/-- A coin overlapping the left wall. -/
def coinAtWall : Coin :=
  ⟨0.05, 1, -2, 0, 0, 0, 0.12, 0.01, 0.6, 0.005, 0, false, 0, [], 0, none⟩

/-! ## The claims -/

/-- C1, counterexample: the claim says the drag term is skipped when
speed == 0, so that no division by zero occurs.  The code (script.js
lines 64–71) has no such guard: from the finite, non-settled state
`coinZeroSpeed` (vx = 0, vy = −9.81·0.01) a single step with dt = 0.01
reaches speed 0 after the gravity update and divides 0/0, producing NaN
(modelled as `none`) in the velocity and hence in the position. -/
theorem claim_C1_counterexample :
    coinZeroSpeed.isSettled = false
      ∧ Coin.update id testWorld coinZeroSpeed (1/100) = none := by
  refine ⟨rfl, ?_⟩
  norm_num [Coin.update, coinZeroSpeed, GRAVITY, testWorld]

/-- C1, amended: the integrator has no speed == 0 guard.  For a
non-settled coin the step produces NaN (modelled `none`) exactly when the
speed at the drag computation is zero — vx = 0 and vy + G·dt = 0 — and in
every other case it returns a defined (finite, in exact arithmetic)
state. -/
theorem claim_C1 (sq : ℚ → ℚ) (w : World) (c : Coin) (dt : ℚ)
    (h : c.isSettled = false) :
    Coin.update sq w c dt = none ↔ c.vx = 0 ∧ c.vy + GRAVITY * dt = 0 :=
  Coin.update_none_iff sq w c dt h

/-- C1, witness: the amended theorem applied to an ordinary flying coin:
its step is defined. -/
theorem claim_C1_witness : Coin.update id testWorld coinFlying (1/100) ≠ none := by
  intro hn
  have h := (claim_C1 id testWorld coinFlying (1/100) rfl).mp hn
  norm_num [coinFlying] at h

/-- C2, counterexample: the claim says dt ≤ 0 is clamped to a minimum
safe positive value.  The code (script.js line 478) computes
`Math.min(elapsed/1000, 0.02)` only: an elapsed time of 0 ms yields
dt = 0, which is not positive, and the core integrates with it. -/
theorem claim_C2_counterexample : animateDt 0 = 0 ∧ ¬ 0 < animateDt 0 := by
  norm_num [animateDt]

/-- C2, amended: the animation loop clamps dt from above to 0.02 s, but
applies no lower clamp: any non-positive elapsed time passes through as
`elapsed / 1000` unchanged. -/
theorem claim_C2 (elapsedMs : ℚ) :
    animateDt elapsedMs ≤ 0.02
      ∧ (elapsedMs ≤ 0 → animateDt elapsedMs = elapsedMs / 1000) := by
  constructor
  · exact min_le_right _ _
  · intro h
    apply min_eq_left
    linarith

/-- C2, witness: a backwards clock jump of 5 ms is passed through as a
negative dt. -/
theorem claim_C2_witness :
    animateDt (-5) ≤ 0.02 ∧ animateDt (-5) = (-5) / 1000 :=
  ⟨(claim_C2 (-5)).1, (claim_C2 (-5)).2 (by norm_num)⟩

/-- C4: for a settled coin the step (script.js lines 58–59) is a no-op
returning the very same state, and therefore so is any iterated run of
steps; in particular settled is monotonic for the rest of the run. -/
theorem claim_C4 (sq : ℚ → ℚ) (w : World) (c : Coin) (dt : ℚ) (dts : List ℚ)
    (h : c.isSettled = true) :
    Coin.update sq w c dt = some c ∧ updateIter sq w c dts = some c := by
  refine ⟨Coin.update_of_settled sq w c dt h, ?_⟩
  induction dts with
  | nil => rfl
  | cons d ds ih =>
      rw [updateIter_cons, Coin.update_of_settled sq w c d h]
      simpa using ih

/-- C4, witness: a concrete settled coin is returned unchanged by one
step and by a two-step run. -/
theorem claim_C4_witness :
    Coin.update id testWorld coinDone (1/50) = some coinDone
      ∧ updateIter id testWorld coinDone [1/50, 1/50] = some coinDone :=
  claim_C4 id testWorld coinDone (1/50) [1/50, 1/50] rfl

/-- C9: the constructor (script.js lines 39–56) starts every coin with
rotation angle 0, angular velocity equal to the parameter spin, not
settled, settle timer 0, unresolved outcome and an empty trajectory —
so the final outcome depends only on rotation accumulated during the
run, not on an initial orientation. -/
theorem claim_C9 (cosf sinf : ℚ → ℚ) (x y : ℚ) (p : Params) (ci : ℕ) :
    (mkCoin cosf sinf x y p ci).angle = 0
      ∧ (mkCoin cosf sinf x y p ci).angularVelocity = p.spin
      ∧ (mkCoin cosf sinf x y p ci).isSettled = false
      ∧ (mkCoin cosf sinf x y p ci).settleTimer = 0
      ∧ (mkCoin cosf sinf x y p ci).result = none
      ∧ (mkCoin cosf sinf x y p ci).trajectory = [] :=
  ⟨rfl, rfl, rfl, rfl, rfl, rfl⟩

/-- C10: the integrator is deterministic and uses no randomness: two
coins constructed from the same parameters and start position (they can
differ only in the cosmetic color index) evolve, under the same dt
sequence and world, to states that agree on every physical field and in
particular produce the same outcome. -/
theorem claim_C10 (sq cosf sinf : ℚ → ℚ) (w : World) (x y : ℚ) (p : Params)
    (i j : ℕ) (dts : List ℚ) :
    (updateIter sq w (mkCoin cosf sinf x y p i) dts).map (fun a => a.withColor 0)
        = (updateIter sq w (mkCoin cosf sinf x y p j) dts).map (fun a => a.withColor 0)
      ∧ (updateIter sq w (mkCoin cosf sinf x y p i) dts).map Coin.result
        = (updateIter sq w (mkCoin cosf sinf x y p j) dts).map Coin.result := by
  have hi : mkCoin cosf sinf x y p i = (mkCoin cosf sinf x y p j).withColor i := rfl
  constructor
  · rw [hi, updateIter_withColor]
    cases h2 : updateIter sq w (mkCoin cosf sinf x y p j) dts <;> rfl
  · rw [hi, updateIter_withColor]
    cases h2 : updateIter sq w (mkCoin cosf sinf x y p j) dts <;> rfl

/-- C3: for a non-settled coin in ground contact (script.js lines
88–111), if the bounced velocities are below the 0.1 thresholds then the
step adds dt to the settle timer, and once the accumulated timer exceeds
0.5 s the coin settles with vx, vy and angular velocity zeroed and its
outcome computed from its rotation angle; if the speed is not low the
settle timer is reset to 0. -/
theorem claim_C3 (w : World) (dt : ℚ) (c : Coin)
    (_hns : c.isSettled = false) (hg : c.y + c.radius > w.groundY) :
    ((|-c.vy * c.restitution| < 0.1 ∧ |c.vx * 0.95| < 0.1) →
        (c.groundStep w dt).settleTimer = c.settleTimer + dt
          ∧ (c.settleTimer + dt > 0.5 →
              (c.groundStep w dt).isSettled = true
                ∧ (c.groundStep w dt).vx = 0
                ∧ (c.groundStep w dt).vy = 0
                ∧ (c.groundStep w dt).angularVelocity = 0
                ∧ (c.groundStep w dt).result = some (determineResult c.angle)))
      ∧ (¬(|-c.vy * c.restitution| < 0.1 ∧ |c.vx * 0.95| < 0.1) →
          (c.groundStep w dt).settleTimer = 0) := by
  simp only [Coin.groundStep]
  rw [if_pos hg]
  by_cases hlow : |-c.vy * c.restitution| < 0.1 ∧ |c.vx * 0.95| < 0.1
  · rw [if_pos hlow]
    by_cases ht : c.settleTimer + dt > 0.5
    · rw [if_pos ht]
      exact ⟨fun _ => ⟨rfl, fun _ => ⟨rfl, rfl, rfl, rfl, rfl⟩⟩, fun hh => absurd hlow hh⟩
    · rw [if_neg ht]
      exact ⟨fun _ => ⟨rfl, fun h => absurd h ht⟩, fun hh => absurd hlow hh⟩
  · rw [if_neg hlow]
    exact ⟨fun hl => absurd hl hlow, fun _ => rfl⟩

/-- C3, witness: a coin on the ground below both thresholds with timer
0.6 settles on a step of dt = 0.1, with the timer accumulated to 0.7. -/
theorem claim_C3_witness :
    (coinSettling.groundStep testWorld (1/10)).isSettled = true
      ∧ (coinSettling.groundStep testWorld (1/10)).settleTimer = 7/10 := by
  have h := claim_C3 testWorld (1/10) coinSettling rfl
    (by norm_num [coinSettling, testWorld, World.groundY, SCALE])
  have hl := h.1 (by norm_num [coinSettling, abs_lt])
  exact ⟨(hl.2 (by norm_num [coinSettling])).1, by rw [hl.1]; norm_num [coinSettling]⟩

/-- C5: the outcome tracks the settled flag: the classification is heads
exactly when the normalized angle is below π/2 or above 3π/2; a step
preserves the invariant that the outcome is unresolved iff not settled;
on the step that first settles a coin the outcome is computed from the
coin's rotation angle; and a step never changes the outcome of an
already settled coin. -/
theorem claim_C5 (sq : ℚ → ℚ) (w : World) (c c' : Coin) (dt a : ℚ) :
    (determineResult a = CoinResult.heads ↔
        normalizeAngle a < MATH_PI / 2 ∨ normalizeAngle a > 3 * (MATH_PI / 2))
      ∧ ((c.result = none ↔ c.isSettled = false) → Coin.update sq w c dt = some c' →
          (c'.result = none ↔ c'.isSettled = false))
      ∧ (c.isSettled = false → Coin.update sq w c dt = some c' → c'.isSettled = true →
          c'.result = some (determineResult c'.angle))
      ∧ (c.isSettled = true → Coin.update sq w c dt = some c' → c'.result = c.result) := by
  refine ⟨?_, ?_, ?_, ?_⟩
  · simp only [determineResult]
    split_ifs with h <;> simp [h]
  · intro hinv hup
    by_cases hs : c.isSettled = true
    · rw [Coin.update_of_settled sq w c dt hs] at hup
      injection hup with h
      rw [← h]
      exact hinv
    · have hs' : c.isSettled = false := by
        cases hb : c.isSettled
        · rfl
        · exact absurd hb hs
      by_cases hz : c.vx * c.vx + (c.vy + GRAVITY * dt) * (c.vy + GRAVITY * dt) = 0
      · rw [(Coin.update_none_iff sq w c dt hs').mpr
          (mul_self_add_mul_self_eq_zero.mp hz)] at hup
        exact Option.noConfusion hup
      · rw [Coin.update_eq_some sq w c dt hs' hz] at hup
        injection hup with h
        rw [← h]
        rcases Coin.groundStep_cases (c.freeflight sq dt) w dt with ⟨hr, hsd⟩ | ⟨hr, hsd⟩
        · rw [Coin.wallStep_result, hr, Coin.freeflight_result,
            Coin.wallStep_isSettled, hsd, Coin.freeflight_isSettled]
          exact hinv
        · rw [Coin.wallStep_result, hr, Coin.wallStep_isSettled, hsd]
          simp
  · intro hs hup hset
    by_cases hz : c.vx * c.vx + (c.vy + GRAVITY * dt) * (c.vy + GRAVITY * dt) = 0
    · rw [(Coin.update_none_iff sq w c dt hs).mpr
        (mul_self_add_mul_self_eq_zero.mp hz)] at hup
      exact Option.noConfusion hup
    · rw [Coin.update_eq_some sq w c dt hs hz] at hup
      injection hup with h
      rw [← h] at hset ⊢
      rcases Coin.groundStep_cases (c.freeflight sq dt) w dt with ⟨hr, hsd⟩ | ⟨hr, hsd⟩
      · rw [Coin.wallStep_isSettled, hsd, Coin.freeflight_isSettled, hs] at hset
        exact Bool.noConfusion hset
      · rw [Coin.wallStep_result, Coin.wallStep_angle, Coin.groundStep_angle, hr]
  · intro hs hup
    rw [Coin.update_of_settled sq w c dt hs] at hup
    injection hup with h
    rw [← h]

/-- C5, witness: stepping the concrete coin `coinSettling` settles it,
and its stored outcome equals the classification of its angle. -/
theorem claim_C5_witness :
    coinSettled.isSettled = true
      ∧ coinSettled.result = some (determineResult coinSettled.angle) := by
  have hup : Coin.update id testWorld coinSettling (1/1000) = some coinSettled := by
    norm_num [coinSettled, Coin.update, Coin.freeflight, Coin.groundStep, Coin.wallStep,
      coinSettling, GRAVITY, testWorld, World.groundY, SCALE, abs_lt]
  have hs : coinSettled.isSettled = true := by
    norm_num [coinSettled, Coin.update, Coin.freeflight, Coin.groundStep, Coin.wallStep,
      coinSettling, GRAVITY, testWorld, World.groundY, SCALE, abs_lt]
  exact ⟨hs, (claim_C5 id testWorld coinSettling coinSettled (1/1000) 0).2.2.1 rfl hup hs⟩

/-- C6: the chaos run (script.js lines 397–418) builds 8 coins; coin i is
constructed from the base parameters with only the velocity scaled by
1 + (i − 3.5)·0.002, every other parameter identical; for a positive base
velocity the per-coin launch velocities strictly increase with i. -/
theorem claim_C6 (cosf sinf : ℚ → ℚ) (w : World) (p : Params) (hv : 0 < p.velocity) :
    (runChaosDemo cosf sinf w p).length = 8
      ∧ (∀ i : ℕ, i < 8 → (runChaosDemo cosf sinf w p)[i]? =
          some (mkCoin cosf sinf (startX w) (startY w p) (chaosParams p i) i))
      ∧ (∀ i : ℕ, (chaosParams p i).velocity = p.velocity * (1 + ((i : ℚ) - 3.5) * 0.002)
          ∧ (chaosParams p i).height = p.height
          ∧ (chaosParams p i).spin = p.spin
          ∧ (chaosParams p i).angle = p.angle
          ∧ (chaosParams p i).wind = p.wind
          ∧ (chaosParams p i).restitution = p.restitution
          ∧ (chaosParams p i).drag = p.drag)
      ∧ (∀ i j : ℕ, i < j → (chaosParams p i).velocity < (chaosParams p j).velocity) := by
  refine ⟨by simp [runChaosDemo], ?_, fun i => ⟨rfl, rfl, rfl, rfl, rfl, rfl, rfl⟩, ?_⟩
  · intro i hi
    simp [runChaosDemo, List.getElem?_map, List.getElem?_range, hi]
  · intro i j hij
    have hq : (i : ℚ) < (j : ℚ) := by exact_mod_cast hij
    show p.velocity * chaosVariation i < p.velocity * chaosVariation j
    refine mul_lt_mul_of_pos_left ?_ hv
    simp only [chaosVariation]
    linarith

/-- C6, witness: the defaults (velocity 5) satisfy the positivity
hypothesis, and coin 2's launch velocity is below coin 5's. -/
theorem claim_C6_witness :
    0 < defaultParams.velocity
      ∧ (chaosParams defaultParams 2).velocity < (chaosParams defaultParams 5).velocity :=
  ⟨by norm_num [defaultParams],
   (claim_C6 id id testWorld defaultParams (by norm_num [defaultParams])).2.2.2 2 5
     (by norm_num)⟩

/-- C7: the wall block (script.js lines 113–121): a coin with
x − radius < 0 is clamped to x = radius with vx flipped and scaled by
0.8; symmetrically a coin past the right wall is clamped to
width − radius with vx flipped and scaled by 0.8; and (whenever the world
is at least a coin wide, as `resizeCanvas` guarantees) the coin is never
left with x < radius. -/
theorem claim_C7 (w : World) (c : Coin) (hw : 2 * c.radius ≤ w.canvasWidth / SCALE) :
    (c.x - c.radius < 0 →
        (c.wallStep w).x = c.radius ∧ (c.wallStep w).vx = -c.vx * 0.8)
      ∧ (0 ≤ c.x - c.radius → c.x + c.radius > w.canvasWidth / SCALE →
          (c.wallStep w).x = w.canvasWidth / SCALE - c.radius
            ∧ (c.wallStep w).vx = -c.vx * 0.8)
      ∧ c.radius ≤ (c.wallStep w).x := by
  simp only [Coin.wallStep]
  split_ifs with h1 h2 h2
  · exfalso
    dsimp only at h2
    linarith
  · exact ⟨fun _ => ⟨rfl, rfl⟩, fun hge => absurd h1 (not_lt.mpr hge), le_refl _⟩
  · refine ⟨fun hlt => absurd hlt h1, fun _ _ => ⟨rfl, rfl⟩, ?_⟩
    dsimp only
    linarith
  · refine ⟨fun hlt => absurd hlt h1, fun _ hgt => absurd hgt h2, ?_⟩
    dsimp only
    linarith [not_lt.mp h1]

/-- C7, witness: a concrete coin overlapping the left wall is clamped to
x = radius with its vx flipped and damped. -/
theorem claim_C7_witness :
    (coinAtWall.wallStep testWorld).x = coinAtWall.radius
      ∧ (coinAtWall.wallStep testWorld).vx = -coinAtWall.vx * 0.8 :=
  (claim_C7 testWorld coinAtWall (by norm_num [coinAtWall, testWorld, SCALE])).1
    (by norm_num [coinAtWall])

/-- C8: each classification increments total and exactly one of heads or
tails, so heads + tails = total is preserved; a batch of 100 runs adds
exactly 100 to total (and keeps the invariant); and clearing the
statistics zeroes total, heads and tails while leaving the in-flight
run's coins and flag untouched. -/
theorem claim_C8 (s : Stats) (r : CoinResult) (results : List CoinResult) (st : SimState) :
    (updateStats s r).total = s.total + 1
      ∧ (updateStats s r).heads + (updateStats s r).tails = s.heads + s.tails + 1
      ∧ (s.heads + s.tails = s.total →
          (updateStats s r).heads + (updateStats s r).tails = (updateStats s r).total)
      ∧ (results.length = 100 → (runBatch s results).total = s.total + 100)
      ∧ (s.heads + s.tails = s.total →
          (runBatch s results).heads + (runBatch s results).tails
            = (runBatch s results).total)
      ∧ (clearStatsState st).stats.total = 0
      ∧ (clearStatsState st).stats.heads = 0
      ∧ (clearStatsState st).stats.tails = 0
      ∧ (clearStatsState st).chaosCoins = st.chaosCoins
      ∧ (clearStatsState st).isSimulating = st.isSimulating := by
  refine ⟨updateStats_total s r, updateStats_heads_add_tails s r, ?_, ?_,
    runBatch_inv s results, rfl, rfl, rfl, rfl, rfl⟩
  · intro h
    rw [updateStats_heads_add_tails, updateStats_total, h]
  · intro h
    rw [runBatch_total, h]

/-- C8, witness: a batch of 100 heads results starting from cleared
statistics ends with total 100 and heads + tails = total. -/
theorem claim_C8_witness :
    (runBatch ⟨0, 0, 0⟩ (List.replicate 100 CoinResult.heads)).total = 0 + 100
      ∧ (runBatch ⟨0, 0, 0⟩ (List.replicate 100 CoinResult.heads)).heads
          + (runBatch ⟨0, 0, 0⟩ (List.replicate 100 CoinResult.heads)).tails
          = (runBatch ⟨0, 0, 0⟩ (List.replicate 100 CoinResult.heads)).total :=
  ⟨(claim_C8 ⟨0, 0, 0⟩ CoinResult.heads (List.replicate 100 CoinResult.heads)
      ⟨⟨0, 0, 0⟩, [], false⟩).2.2.2.1 (by simp),
   (claim_C8 ⟨0, 0, 0⟩ CoinResult.heads (List.replicate 100 CoinResult.heads)
      ⟨⟨0, 0, 0⟩, [], false⟩).2.2.2.2.1 rfl⟩

end CoinSim
